import Mathlib

/-!
A verification development for the SIF container-management engine
(`pkg/sif/create.go`).  The Go code is shallowly embedded: machine
integers become `Int`/`Nat` with explicit two's-complement conversion
where the code converts, file writes become an explicit event trace,
and the process environment (clock, user identity) is passed as data.
-/

set_option maxRecDepth 8000

namespace Sif

instance {ε α : Type} [DecidableEq ε] [DecidableEq α] :
    DecidableEq (Except ε α) := fun a b =>
  match a, b with
  | Except.ok x, Except.ok y =>
      if h : x = y then isTrue (by rw [h])
      else isFalse (by intro c; cases c; exact h rfl)
  | Except.error x, Except.error y =>
      if h : x = y then isTrue (by rw [h])
      else isFalse (by intro c; cases c; exact h rfl)
  | Except.ok _, Except.error _ => isFalse (by intro c; cases c)
  | Except.error _, Except.ok _ => isFalse (by intro c; cases c)

/-- Interpret an `Int` the way Go's `uint64(x)` conversion does:
reduce modulo `2^64` into `[0, 2^64)`. -/
def u64ofInt (i : Int) : Nat := (i % (2 ^ 64 : Int)).toNat

/-- Interpret a `Nat` the way Go's `int64(x)` conversion does:
reduce modulo `2^64`, then map `[2^63, 2^64)` to negative values. -/
def i64ofNat (n : Nat) : Int :=
  if n % 2 ^ 64 < 2 ^ 63 then ((n % 2 ^ 64 : Nat) : Int)
  else ((n % 2 ^ 64 : Nat) : Int) - 2 ^ 64

/-- Modelled from the spec: fixed descriptor-table capacity
(`DescrNumEntries`, declared outside `src/`). -/
def DescrNumEntries : Nat := 48

/-- Modelled from the spec: fixed absolute byte offset of the descriptor
table (`DescrStartOffset`, declared outside `src/`). -/
def DescrStartOffset : Int := 4096

/-- Modelled from the spec: fixed absolute byte offset of the data region
(`DataStartOffset`, declared outside `src/`). -/
def DataStartOffset : Int := 32768

/-- Modelled from the spec: byte size of one encoded descriptor record
(`binary.Size` of a `Descriptor`, derived from declarations outside `src/`). -/
def descrSize : Int := 585

/-- Modelled from the spec: byte size of the encoded global header
(`binary.Size` of the `Header`, derived from declarations outside `src/`). -/
def headerSize : Int := 728

/-- Modelled from the spec: the host page size returned by
`os.Getpagesize()`, the alignment unit for payload offsets. -/
def pageSize : Int := 4096

/-- Modelled from the spec: fixed capacity of a descriptor's name field
(`DescrNameLen`, declared outside `src/`). -/
def DescrNameLen : Nat := 128

/-- Modelled from the spec: fixed capacity of a descriptor's extra
metadata field (`DescrMaxPrivLen`, declared outside `src/`). -/
def DescrMaxPrivLen : Nat := 384

/-- Modelled from the spec: the zero-fill deletion mode flag (`DelZero`,
declared outside `src/`). -/
def DelZero : Int := 1

/-- Modelled from the spec: the compact deletion mode flag (`DelCompact`,
declared outside `src/`; distinct from `DelZero`). -/
def DelCompact : Int := 2

/-- Modelled from the spec: the magic tag copied into a fresh header
(`HdrMagic`, declared outside `src/`). -/
def HdrMagic : String := "SIF_MAGIC"

/-- The distinct failure outcomes of `create.go` (each constructor stands
for one `fmt.Errorf` site / error kind of the spec). -/
inductive SifError where
  | emptyInputSet
  | noFreeSlot
  | tableDesync
  | shortWrite
  | unknownID
  | notImplemented
deriving Repr, DecidableEq

/-- One observable write to the backing file: payload bytes, zero bytes,
the full descriptor table, the global header, one reset (emptied)
descriptor record, or a durability barrier. -/
inductive Ev where
  | data : Int → List Nat → Ev
  | zero : Int → Int → Ev
  | table : Ev
  | header : Ev
  | reset : Nat → Ev
  | sync : Ev
deriving Repr, DecidableEq

/-- In-memory mirror of one descriptor-table slot (Go `Descriptor`). -/
structure Descriptor where
  Datatype : Int
  ID : Nat
  Used : Bool
  Groupid : Int
  Link : Int
  Fileoff : Int
  Filelen : Int
  Storelen : Int
  Ctime : Int
  Mtime : Int
  UID : Int
  Gid : Int
  Name : List Char
  Extra : List Nat
deriving Repr, DecidableEq

/-- The Go zero value of `Descriptor` (`var emptyDesc Descriptor`). -/
def emptyDescriptor : Descriptor :=
  { Datatype := 0, ID := 0, Used := false, Groupid := 0, Link := 0,
    Fileoff := 0, Filelen := 0, Storelen := 0, Ctime := 0, Mtime := 0,
    UID := 0, Gid := 0, Name := [], Extra := [] }

/-- In-memory global header (Go `Header`). -/
structure Header where
  Launch : String
  Magic : String
  Version : String
  Arch : String
  ID : List Nat
  Ctime : Int
  Mtime : Int
  Dfree : Int
  Dtotal : Int
  Descroff : Int
  Descrlen : Int
  Dataoff : Int
  Datalen : Int
deriving Repr, DecidableEq

/-- The Go zero value of `Header`. -/
def zeroHeader : Header :=
  { Launch := "", Magic := "", Version := "", Arch := "", ID := [],
    Ctime := 0, Mtime := 0, Dfree := 0, Dtotal := 0, Descroff := 0,
    Descrlen := 0, Dataoff := 0, Datalen := 0 }

/-- Container handle (Go `FileImage`): header, descriptor-table mirror,
and the file pointer position of the owned handle. -/
structure FileImage where
  Header : Header
  DescrArr : List Descriptor
  pos : Int
deriving Repr, DecidableEq

/-- Caller-supplied description of one object (Go `DescriptorInput`).
`Data = some bs` models a non-nil in-memory buffer; `Fp` models the
byte stream that `io.Copy` would drain when `Data` is nil. -/
structure DescriptorInput where
  Datatype : Int
  Groupid : Int
  Link : Int
  Size : Int
  Fname : List Char
  Data : Option (List Nat)
  Fp : List Nat
  Extra : List Nat
deriving Repr, DecidableEq

/-- Creation specification (Go `CreateInfo`); the input list is already a
`List` (the Go code type-asserts each `container/list` element). -/
structure CreateInfo where
  Pathname : String
  Launchstr : String
  Sifversion : String
  Arch : String
  ID : List Nat
  Inputlist : List DescriptorInput
deriving Repr, DecidableEq

/-- The ambient process environment: the wall clock read by `time.Now`
and the identity resolved by `getUserIDs` (an external collaborator in
the spec's scoping). -/
structure Env where
  now : Int
  uid : Int
  gid : Int
deriving Repr, DecidableEq

/-- Go `nextAligned` from `create.go`: next offset aligned to the block
size, computed with Go's `uint64` conversions, bit operations and final
`int64` conversion. -/
def nextAligned (offset : Int) (align : Int) : Int :=
  let align64 := u64ofInt align
  let offset64 := u64ofInt offset
  let offset64 :=
    if offset64 % align64 ≠ 0 then
      (Nat.land offset64
          (Nat.xor (2 ^ 64 - 1) ((align64 + (2 ^ 64 - 1)) % 2 ^ 64)) +
          align64) % 2 ^ 64
    else offset64
  i64ofNat offset64

/-- Go `setFileOffNA` from `create.go`: reads the current file position,
seeks to the next aligned offset, and returns it. -/
def setFileOffNA (fimg : FileImage) (alignment : Int) : Int × FileImage :=
  let offset := fimg.pos
  let aligned := nextAligned offset alignment
  (aligned, { fimg with pos := aligned })

/-- Modelled from the spec: `path.Base` of the Go standard library
(outside `src/`), the basename of the caller-supplied name (Go strings
are byte sequences; they are modelled as character lists). -/
def pathBase (s : List Char) : List Char :=
  if s = [] then ['.']
  else
    let t := (s.reverse.dropWhile (fun c => c == '/')).reverse
    if t = [] then ['/']
    else (t.reverse.takeWhile (fun c => c != '/')).reverse

/-- Go `fillDescriptor` from `create.go`: records the pre-layout position,
aligns the file pointer to the page size, and populates slot `index`. -/
def fillDescriptor (env : Env) (fimg : FileImage) (index : Nat)
    (input : DescriptorInput) : FileImage :=
  let curoff := fimg.pos
  let aligned := setFileOffNA fimg pageSize
  let descr : Descriptor :=
    { Datatype := input.Datatype
      ID := index + 1
      Used := true
      Groupid := input.Groupid
      Link := input.Link
      Fileoff := aligned.1
      Filelen := input.Size
      Storelen := aligned.1 + input.Size - curoff
      Ctime := env.now
      Mtime := env.now
      UID := env.uid
      Gid := env.gid
      Name := (pathBase input.Fname).take DescrNameLen
      Extra := input.Extra.take DescrMaxPrivLen }
  { aligned.2 with DescrArr := aligned.2.DescrArr.set index descr }

/-- Go `writeDataObject` from `create.go`: a non-nil buffer is written
verbatim; otherwise the stream is drained by `io.Copy` and the byte
count is checked against the declared size. -/
def writeDataObject (fimg : FileImage) (input : DescriptorInput) :
    Except SifError Unit × FileImage × List Ev :=
  match input.Data with
  | some bs =>
      (Except.ok (), { fimg with pos := fimg.pos + (bs.length : Int) },
        [Ev.data fimg.pos bs])
  | none =>
      let n : Int := (input.Fp.length : Int)
      let fimg1 := { fimg with pos := fimg.pos + n }
      if n ≠ input.Size then
        (Except.error SifError.shortWrite, fimg1, [Ev.data fimg.pos input.Fp])
      else
        (Except.ok (), fimg1, [Ev.data fimg.pos input.Fp])

/-- The slot index at which the `range` loop of `createDescriptor` stops:
the first slot with `Used == false`, or the last index when no slot is
free (Go's loop variable retains the final index). -/
def scanFree (arr : List Descriptor) : Nat :=
  if arr.findIdx (fun v => v.Used == false) = arr.length then arr.length - 1
  else arr.findIdx (fun v => v.Used == false)

/-- Go `createDescriptor` from `create.go`: guard on `Dfree`, scan for a
free slot, defensively re-check, fill the slot, write the payload, and
update `Dfree`/`Datalen`. -/
def createDescriptor (env : Env) (fimg : FileImage)
    (input : DescriptorInput) : Except SifError Unit × FileImage × List Ev :=
  if fimg.Header.Dfree = 0 then
    (Except.error SifError.noFreeSlot, fimg, [])
  else
    let idx := scanFree fimg.DescrArr
    if (idx : Int) = fimg.Header.Dtotal - 1 ∧
        (fimg.DescrArr.getD idx emptyDescriptor).Used = true then
      (Except.error SifError.tableDesync, fimg, [])
    else
      let fimg1 := fillDescriptor env fimg idx input
      match writeDataObject fimg1 input with
      | (Except.error e, fimg2, evs) => (Except.error e, fimg2, evs)
      | (Except.ok _, fimg2, evs) =>
          let fimg3 :=
            { fimg2 with Header :=
                { fimg2.Header with
                    Dfree := fimg2.Header.Dfree - 1
                    Datalen := fimg2.Header.Datalen +
                      (fimg2.DescrArr.getD idx emptyDescriptor).Storelen } }
          (Except.ok (), fimg3, evs)

/-- Go `writeDescriptors` from `create.go`: seek to `DescrStartOffset`,
write every slot of the table, and record the encoded table length. -/
def writeDescriptors (fimg : FileImage) : FileImage × List Ev :=
  let endPos := DescrStartOffset + (fimg.DescrArr.length : Int) * descrSize
  ({ fimg with
      pos := endPos
      Header := { fimg.Header with
        Descrlen := (fimg.DescrArr.length : Int) * descrSize } },
    [Ev.table])

/-- Go `writeHeader` from `create.go`: seek to offset 0 and write the
encoded global header. -/
def writeHeader (fimg : FileImage) : FileImage × List Ev :=
  ({ fimg with pos := headerSize }, [Ev.header])

/-- The fresh global header prepared by `CreateContainer`. -/
def freshHeader (env : Env) (cinfo : CreateInfo) : Header :=
  { zeroHeader with
      Launch := cinfo.Launchstr
      Magic := HdrMagic
      Version := cinfo.Sifversion
      Arch := cinfo.Arch
      ID := cinfo.ID
      Ctime := env.now
      Mtime := env.now
      Dfree := (DescrNumEntries : Int)
      Dtotal := (DescrNumEntries : Int)
      Descroff := DescrStartOffset
      Dataoff := DataStartOffset }

/-- The per-object loop body of `CreateContainer`, iterated over the
input list in caller order; any failure aborts the whole loop. -/
def createLoop (env : Env) (fimg : FileImage) :
    List DescriptorInput → Except SifError Unit × FileImage × List Ev
  | [] => (Except.ok (), fimg, [])
  | input :: rest =>
      match createDescriptor env fimg input with
      | (Except.error e, fimg1, evs) => (Except.error e, fimg1, evs)
      | (Except.ok _, fimg1, evs) =>
          match createLoop env fimg1 rest with
          | (r, fimg2, evs2) => (r, fimg2, evs ++ evs2)

/-- Go `CreateContainer` from `create.go`: fresh header and table, seek to
the data region, lay out every input object, then persist the table and
finally the header. -/
def CreateContainer (env : Env) (cinfo : CreateInfo) :
    Except SifError Unit × FileImage × List Ev :=
  let fimg : FileImage :=
    { Header := zeroHeader,
      DescrArr := List.replicate DescrNumEntries emptyDescriptor, pos := 0 }
  if cinfo.Inputlist.length = 0 then
    (Except.error SifError.emptyInputSet, fimg, [])
  else
    let fimg := { fimg with Header := freshHeader env cinfo }
    let fimg := { fimg with pos := DataStartOffset }
    match createLoop env fimg cinfo.Inputlist with
    | (Except.error e, fimg1, evs) => (Except.error e, fimg1, evs)
    | (Except.ok _, fimg1, evs) =>
        let t := writeDescriptors fimg1
        let h := writeHeader t.1
        (Except.ok (), h.1, evs ++ t.2 ++ h.2)

/-- Go `AddObject` from `create.go`: seek to the current end of the data
region, allocate and write one object, persist the table, stamp
`Mtime`, persist the header, and force durability. -/
def AddObject (env : Env) (fimg : FileImage) (input : DescriptorInput) :
    Except SifError Unit × FileImage × List Ev :=
  let fimg0 := { fimg with pos := fimg.Header.Dataoff + fimg.Header.Datalen }
  match createDescriptor env fimg0 input with
  | (Except.error e, fimg1, evs) => (Except.error e, fimg1, evs)
  | (Except.ok _, fimg1, evs) =>
      let t := writeDescriptors fimg1
      let fimg3 := { t.1 with Header := { t.1.Header with Mtime := env.now } }
      let h := writeHeader fimg3
      (Except.ok (), h.1, evs ++ t.2 ++ h.2 ++ [Ev.sync])

/-- The chunked write loop of `zeroData`: writes `zero[:upbound]` with
`upbound = min n 4096`, decrements `n` by 4096, and stops as soon as
`n ≤ 0`. -/
def zeroLoop (pos : Int) (n : Int) : List Ev :=
  let upbound := if n < 4096 then n else 4096
  if h : n - 4096 ≤ 0 then [Ev.zero pos upbound]
  else Ev.zero pos upbound :: zeroLoop (pos + upbound) (n - 4096)
termination_by n.toNat
decreasing_by simp only [not_le] at h; omega

/-- The byte length carried by one event. -/
def evLen : Ev → Int
  | Ev.data _ bs => (bs.length : Int)
  | Ev.zero _ l => l
  | _ => 0

/-- Go `zeroData` from `create.go`: seek to the payload offset and overwrite
the payload region with zero bytes, in chunks of at most 4096 bytes. -/
def zeroData (fimg : FileImage) (descr : Descriptor) : FileImage × List Ev :=
  let evs := zeroLoop descr.Fileoff descr.Filelen
  ({ fimg with pos := descr.Fileoff + (evs.map evLen).sum }, evs)

/-- Go `resetDescriptor` from `create.go`: seek to slot `index`'s on-disk
position and overwrite it with the all-empty record.  Note: only the
file is written; the in-memory `DescrArr` is not touched. -/
def resetDescriptor (fimg : FileImage) (index : Nat) : FileImage × List Ev :=
  let offset := fimg.Header.Descroff + (index : Int) * descrSize
  ({ fimg with pos := offset + descrSize }, [Ev.reset index])

/-- Modelled from the spec: `GetFromDescrID` (declared outside `src/`)
resolves an id to its descriptor and slot index by scanning the used
slots, failing with the unknown-id error when no used slot carries it. -/
def GetFromDescrID (fimg : FileImage) (id : Nat) :
    Except SifError (Descriptor × Nat) :=
  let idx := fimg.DescrArr.findIdx (fun v => v.Used && v.ID == id)
  match fimg.DescrArr[idx]? with
  | some d => Except.ok (d, idx)
  | none => Except.error SifError.unknownID

/-- Go `DeleteObject` from `create.go`: resolve the id, run the
mode-specific step (`DelZero` zero-fills, `DelCompact` fails, any other
flag value matches no `switch` case and does nothing), then increment
`Dfree`, stamp `Mtime`, reset the on-disk slot, rewrite the header, and
force durability. -/
def DeleteObject (env : Env) (fimg : FileImage) (id : Nat) (flags : Int) :
    Except SifError Unit × FileImage × List Ev :=
  match GetFromDescrID fimg id with
  | Except.error e => (Except.error e, fimg, [])
  | Except.ok di =>
      let step : Except SifError Unit × FileImage × List Ev :=
        if flags = DelZero then
          let z := zeroData fimg di.1
          (Except.ok (), z.1, z.2)
        else if flags = DelCompact then
          (Except.error SifError.notImplemented, fimg, [])
        else
          (Except.ok (), fimg, [])
      match step with
      | (Except.error e, f1, evs) => (Except.error e, f1, evs)
      | (Except.ok _, f1, evs) =>
          let f2 := { f1 with Header :=
            { f1.Header with Dfree := f1.Header.Dfree + 1, Mtime := env.now } }
          let r := resetDescriptor f2 di.2
          let h := writeHeader r.1
          (Except.ok (), h.1, evs ++ r.2 ++ h.2 ++ [Ev.sync])

/-- Number of free (unused) slots in the in-memory table. -/
def countFree (arr : List Descriptor) : Nat :=
  arr.countP (fun v => v.Used == false)

/-- Sum of `Storelen` over the used slots of the table. -/
def usedSum (arr : List Descriptor) : Int :=
  (arr.map (fun v => if v.Used then v.Storelen else 0)).sum

/-- The header's free counter agrees with the in-memory table. -/
def freeSync (fimg : FileImage) : Prop :=
  fimg.Header.Dfree = (countFree fimg.DescrArr : Int)

instance (fimg : FileImage) : Decidable (freeSync fimg) := by
  unfold freeSync; infer_instance

/-- A position `p` is overwritten with zeros by the trace. -/
def zeroCovers (evs : List Ev) (p : Int) : Prop :=
  ∃ q l, Ev.zero q l ∈ evs ∧ q ≤ p ∧ p < q + l

/-- The payload ranges of two descriptors do not overlap. -/
def rangesDisjoint (d1 d2 : Descriptor) : Prop :=
  d1.Fileoff + d1.Filelen ≤ d2.Fileoff ∨ d2.Fileoff + d2.Filelen ≤ d1.Fileoff

/-- Every pair of distinct used slots has disjoint payload ranges. -/
def disjointTable (arr : List Descriptor) : Prop :=
  ∀ i j (hi : i < arr.length) (hj : j < arr.length), i ≠ j →
    (arr.get ⟨i, hi⟩).Used = true → (arr.get ⟨j, hj⟩).Used = true →
    rangesDisjoint (arr.get ⟨i, hi⟩) (arr.get ⟨j, hj⟩)

/-- The trace writes a full descriptor table strictly before the first
header write. -/
def tableThenHeader (tr : List Ev) : Prop :=
  ∃ pre mid post, tr = pre ++ Ev.table :: (mid ++ Ev.header :: post) ∧
    Ev.header ∉ pre ∧ Ev.header ∉ mid

/-- A concrete environment used by the test fixtures. -/
def envA : Env := { now := 1000, uid := 7, gid := 7 }

/-- Fixture: a 10-byte object held in an in-memory buffer. -/
def inputA : DescriptorInput :=
  { Datatype := 4, Groupid := 1, Link := 0, Size := 10, Fname := ['a'],
    Data := some [1, 2, 3, 4, 5, 6, 7, 8, 9, 10], Fp := [], Extra := [] }

/-- Fixture: a creation specification with the single object `inputA`. -/
def cinfoA : CreateInfo :=
  { Pathname := "t.sif", Launchstr := "#!/usr/bin/env run-sif\n",
    Sifversion := "0", Arch := "2", ID := [1, 2], Inputlist := [inputA] }

/-- Fixture: the container produced by `CreateContainer envA cinfoA`. -/
def fA : FileImage := (CreateContainer envA cinfoA).2.1

/-- Fixture: the descriptor allocated for `inputA` in `fA`. -/
def dA : Descriptor := fA.DescrArr.getD 0 emptyDescriptor

/-- Fixture: a container whose 48 slots are all used while the header
still claims five free slots (a desynchronized state). -/
def fFull : FileImage :=
  { Header := { freshHeader envA cinfoA with Dfree := 5 },
    DescrArr := List.replicate 48 { emptyDescriptor with Used := true },
    pos := 0 }

/-- Fixture: a used descriptor with a 5000-byte payload at the start of
the data region. -/
def descrB : Descriptor :=
  { emptyDescriptor with
      Used := true
      ID := 1
      Fileoff := 32768
      Filelen := 5000 }

/-- The descriptor record assembled by `fillDescriptor` for slot `idx`
when the file position is `curoff`. -/
def allocDescr (env : Env) (curoff : Int) (idx : Nat)
    (input : DescriptorInput) : Descriptor :=
  { Datatype := input.Datatype
    ID := idx + 1
    Used := true
    Groupid := input.Groupid
    Link := input.Link
    Fileoff := nextAligned curoff pageSize
    Filelen := input.Size
    Storelen := nextAligned curoff pageSize + input.Size - curoff
    Ctime := env.now
    Mtime := env.now
    UID := env.uid
    Gid := env.gid
    Name := (pathBase input.Fname).take DescrNameLen
    Extra := input.Extra.take DescrMaxPrivLen }

/-- Fixture: an input whose declared size (9999) differs from its
1-byte in-memory buffer. -/
def inputC : DescriptorInput :=
  { Datatype := 4, Groupid := 1, Link := 0, Size := 9999, Fname := ['b'],
    Data := some [5], Fp := [], Extra := [] }

instance (d1 d2 : Descriptor) : Decidable (rangesDisjoint d1 d2) := by
  unfold rangesDisjoint; infer_instance

/-- Fixture: an input with declared size 8192 but a 1-byte buffer. -/
def inputD : DescriptorInput :=
  { Datatype := 4, Groupid := 1, Link := 0, Size := 8192, Fname := ['d'],
    Data := some [9], Fp := [], Extra := [] }

/-- Fixture: a creation specification whose first object's buffer is
shorter than its declared size, followed by the honest `inputA`. -/
def cinfoD : CreateInfo :=
  { cinfoA with Inputlist := [inputD, inputA] }

/-- An input is well-sized when any in-memory buffer it carries has
exactly the declared length, and the declared size is small enough that
file offsets cannot overflow `int64` (at most `2^50`). -/
def sizedInput (input : DescriptorInput) : Prop :=
  input.Size ≤ 2 ^ 50 ∧
  ∀ bs, input.Data = some bs → (bs.length : Int) = input.Size

/-- Every used slot's payload range lies inside
`[dataRegionOffset, position)`. -/
def tableWithin (f : FileImage) : Prop :=
  ∀ i (hi : i < f.DescrArr.length),
    (f.DescrArr.get ⟨i, hi⟩).Used = true →
    f.Header.Dataoff ≤ (f.DescrArr.get ⟨i, hi⟩).Fileoff ∧
    0 ≤ (f.DescrArr.get ⟨i, hi⟩).Filelen ∧
    (f.DescrArr.get ⟨i, hi⟩).Fileoff + (f.DescrArr.get ⟨i, hi⟩).Filelen ≤
      f.pos

/-- The layout invariant maintained by the creation loop. -/
def layoutInv (f : FileImage) : Prop :=
  f.DescrArr.length = DescrNumEntries ∧
  f.Header.Dtotal = (DescrNumEntries : Int) ∧
  f.Header.Dataoff = DataStartOffset ∧
  0 ≤ f.Header.Dfree ∧ f.Header.Dfree ≤ (DescrNumEntries : Int) ∧
  DataStartOffset ≤ f.pos ∧
  f.pos ≤ DataStartOffset +
    ((DescrNumEntries : Int) - f.Header.Dfree) * (2 ^ 50 + 4096) ∧
  tableWithin f ∧ disjointTable f.DescrArr

lemma land_mask (x k : Nat) (hx : x < 2 ^ 64) (hk : k ≤ 64) :
    Nat.land x (Nat.xor (2 ^ 64 - 1) (2 ^ k - 1)) = 2 ^ k * (x / 2 ^ k) := by
  have hrhs : 2 ^ k * (x / 2 ^ k) = (x >>> k) <<< k := by
    rw [Nat.shiftLeft_eq, Nat.shiftRight_eq_div_pow, Nat.mul_comm]
  rw [hrhs]
  apply Nat.eq_of_testBit_eq
  intro i
  show Nat.testBit (x &&& ((2 ^ 64 - 1) ^^^ (2 ^ k - 1))) i = _
  rw [Nat.testBit_and, Nat.testBit_xor, Nat.testBit_two_pow_sub_one,
    Nat.testBit_two_pow_sub_one, Nat.testBit_shiftLeft, Nat.testBit_shiftRight]
  rcases Nat.lt_or_ge i k with hik | hik
  · have h64 : i < 64 := lt_of_lt_of_le hik hk
    simp [hik, h64, Nat.not_le.mpr hik]
  · rcases Nat.lt_or_ge i 64 with hi64 | hi64
    · have hadd : k + (i - k) = i := by omega
      simp [hi64, Nat.not_lt.mpr hik, hik, hadd]
    · have hbit : Nat.testBit x i = false :=
        Nat.testBit_lt_two_pow
          (lt_of_lt_of_le hx (Nat.pow_le_pow_right (by norm_num) hi64))
      have hadd : k + (i - k) = i := by omega
      simp [hbit, hadd, Nat.not_lt.mpr hi64, Nat.not_lt.mpr hik]

lemma nextAligned_spec (o : Int) (k : Nat) (hk : k ≤ 63) (ho : 0 ≤ o)
    (hov : o + 2 ^ k ≤ 2 ^ 63) :
    o ≤ nextAligned o (2 ^ k) ∧ nextAligned o (2 ^ k) - o < 2 ^ k ∧
    nextAligned o (2 ^ k) % 2 ^ k = 0 ∧
    (o % 2 ^ k = 0 → nextAligned o (2 ^ k) = o) := by
  have h1k : (1 : Nat) ≤ 2 ^ k := Nat.one_le_two_pow
  have hklt : (2 : Nat) ^ k ≤ 2 ^ 63 := Nat.pow_le_pow_right (by norm_num) hk
  have hcast2 : (2 : Int) ^ k = ((2 ^ k : Nat) : Int) := by push_cast; ring
  have ho63 : o < 2 ^ 63 := by
    have : (0:Int) < 2 ^ k := by positivity
    omega
  set x := o.toNat with hxdef
  have hox : o = (x : Int) := by omega
  have hx63 : x < 2 ^ 63 := by omega
  have hx64 : x < 2 ^ 64 := by omega
  have hxk : x + 2 ^ k ≤ 2 ^ 63 := by
    rw [hcast2] at hov
    omega
  have hu64o : u64ofInt o = x := by
    simp only [u64ofInt]
    rw [Int.emod_eq_of_lt ho (by push_cast; omega)]
  have hu64a : u64ofInt ((2:Int) ^ k) = 2 ^ k := by
    have h2 : (2:Nat) ^ k < 2 ^ 64 := lt_of_le_of_lt hklt (by norm_num)
    rw [u64ofInt, hcast2, Int.emod_eq_of_lt (by positivity) (by exact_mod_cast h2)]
    exact Int.toNat_natCast _
  have homod_iff : o % 2 ^ k = 0 ↔ x % 2 ^ k = 0 := by
    rw [hox, hcast2]
    exact_mod_cast Iff.rfl
  by_cases hmod : x % 2 ^ k = 0
  · have hres : nextAligned o (2 ^ k) = o := by
      simp only [nextAligned, hu64o, hu64a, hmod, ne_eq, not_true_eq_false, if_false,
        ite_false, i64ofNat]
      rw [Nat.mod_eq_of_lt hx64]
      simp only [if_pos hx63]
      omega
    refine ⟨le_of_eq hres.symm, ?_, ?_, fun _ => hres⟩
    · rw [hres]
      have : (0:Int) < 2 ^ k := by positivity
      omega
    · rw [hres, homod_iff.mpr hmod]
  · have hmask : ((2:Nat) ^ k + (2 ^ 64 - 1)) % 2 ^ 64 = 2 ^ k - 1 := by
      have h2 : (2:Nat) ^ k + (2 ^ 64 - 1) = 2 ^ 64 + (2 ^ k - 1) := by omega
      rw [h2, Nat.add_mod_left, Nat.mod_eq_of_lt (by omega)]
    have hdm := Nat.div_add_mod x (2 ^ k)
    have h1m : 1 ≤ x % 2 ^ k := Nat.one_le_iff_ne_zero.mpr hmod
    have hble : 2 ^ k * (x / 2 ^ k) + x % 2 ^ k = x := hdm
    have hv0lt : 2 ^ k * (x / 2 ^ k) + 2 ^ k < 2 ^ 63 := by omega
    have hres : nextAligned o (2 ^ k) =
        ((2 ^ k * (x / 2 ^ k) + 2 ^ k : Nat) : Int) := by
      simp only [nextAligned, hu64o, hu64a, hmask, ne_eq, hmod, not_false_eq_true,
        if_true, ite_true, i64ofNat]
      rw [land_mask x k hx64 (by omega)]
      rw [Nat.mod_eq_of_lt (by omega), Nat.mod_eq_of_lt (by omega)]
      simp only [if_pos (by omega : 2 ^ k * (x / 2 ^ k) + 2 ^ k < 2 ^ 63)]
    refine ⟨?_, ?_, ?_, fun hal => absurd (homod_iff.mp hal) hmod⟩
    · rw [hres, hox]
      have hxle : x ≤ 2 ^ k * (x / 2 ^ k) + 2 ^ k := by
        have : x % 2 ^ k < 2 ^ k := Nat.mod_lt _ (by omega)
        omega
      exact_mod_cast hxle
    · rw [hres, hox, hcast2, sub_lt_iff_lt_add]
      have hlt : (2 ^ k * (x / 2 ^ k) + 2 ^ k : Nat) < 2 ^ k + x := by omega
      exact_mod_cast hlt
    · rw [hres, hcast2]
      have hnat : (2 ^ k * (x / 2 ^ k) + 2 ^ k) % 2 ^ k = 0 := by
        rw [← Nat.mul_succ, Nat.mul_comm, Nat.mul_mod_left]
      exact_mod_cast hnat

/-- C3 (counterexample): the claim fails as stated at the `int64`
boundary.  For the offset `2^63 - 1 ≥ 0` and the power-of-two alignment
`2 > 0`, `nextAligned` wraps around in the `int64` conversion and
returns `-2^63`, which is smaller than the offset instead of `≥` it. -/
theorem nextAligned_overflow_counterexample :
    (0 : Int) ≤ 2 ^ 63 - 1 ∧ (2 : Int) = 2 ^ (1 : Nat) ∧
    nextAligned (2 ^ 63 - 1) 2 = -(2 ^ 63) ∧
    nextAligned (2 ^ 63 - 1) 2 < 2 ^ 63 - 1 := by decide

/-- C3 (amended): for every offset `o ≥ 0` and power-of-two alignment
`a = 2^k > 0` such that the computation stays inside the non-negative
`int64` range (`o + a ≤ 2^63`), `nextAligned o a` is the smallest
multiple of `a` that is `≥ o`: it is `≥ o`, divisible by `a`, less than
`o + a`, and equal to `o` when `o` is already aligned. -/
theorem nextAligned_smallest_aligned (o a : Int) (k : Nat) (ha : a = 2 ^ k)
    (ho : 0 ≤ o) (hov : o + a ≤ 2 ^ 63) :
    o ≤ nextAligned o a ∧ nextAligned o a % a = 0 ∧
    nextAligned o a - o < a ∧ (o % a = 0 → nextAligned o a = o) := by
  subst ha
  have hk : k ≤ 63 := by
    by_contra hgt
    have h64 : 64 ≤ k := by omega
    have : (2:Int) ^ 64 ≤ 2 ^ k := pow_le_pow_right₀ (by norm_num) h64
    have h63 : (2:Int) ^ k ≤ 2 ^ 63 := by omega
    norm_num at this h63
    omega
  obtain ⟨h1, h2, h3, h4⟩ := nextAligned_spec o k hk ho hov
  exact ⟨h1, h3, h2, h4⟩

/-- C3 (witness): at offset 5 and alignment 4 the hypotheses hold and
`nextAligned` returns 8. -/
theorem nextAligned_smallest_aligned_witness :
    ((4 : Int) = 2 ^ (2 : Nat) ∧ (0 : Int) ≤ 5 ∧ (5 : Int) + 4 ≤ 2 ^ 63) ∧
    ((5 : Int) ≤ nextAligned 5 4 ∧ nextAligned 5 4 % 4 = 0 ∧
      nextAligned 5 4 - 5 < 4 ∧ ((5 : Int) % 4 = 0 → nextAligned 5 4 = 5)) :=
  ⟨⟨by norm_num, by norm_num, by norm_num⟩,
    nextAligned_smallest_aligned 5 4 2 (by norm_num) (by norm_num) (by norm_num)⟩

/-- C1 (code bug): creating a container with one object leaves the free
counter synchronized with the in-memory table (`Dfree = 47`, 47 unused
slots), but a successful `DeleteObject` increments `Dfree` to 48 while
never clearing the in-memory slot's `Used` flag, leaving only 47 unused
slots: the counter/table synchronization is broken by deletion, against
the deletion doc comment ("the descriptor ... is free'd and can be
reused later"). -/
theorem deleteObject_breaks_freeSync :
    (CreateContainer envA cinfoA).1 = Except.ok () ∧ freeSync fA ∧
    (DeleteObject envA fA 1 DelZero).1 = Except.ok () ∧
    (DeleteObject envA fA 1 DelZero).2.1.Header.Dfree = 48 ∧
    countFree (DeleteObject envA fA 1 DelZero).2.1.DescrArr = 47 ∧
    ¬ freeSync (DeleteObject envA fA 1 DelZero).2.1 := by
  decide

/-- C2 (counterexample): `DeleteObject` with the mode value 3 — neither
zero-fill nor compact — does not fail: it succeeds and increments the
header's free counter, refuting that every mode other than zero-fill
fails and changes nothing. -/
theorem deleteObject_unknown_flag_counterexample :
    (3 : Int) ≠ DelZero ∧ (3 : Int) ≠ DelCompact ∧
    (DeleteObject envA fA 1 3).1 = Except.ok () ∧
    (DeleteObject envA fA 1 3).2.1.Header.Dfree = fA.Header.Dfree + 1 := by
  decide

/-- C2 (amended): when the id resolves, a `DeleteObject` call with a
mode other than zero-fill behaves as follows: the compact mode fails
with the not-implemented error and performs no deletion step (state
unchanged, nothing written); any other mode value matches no case of
the `switch`, so instead of failing with an invalid-mode error the
deletion proceeds without a mode-specific step — the free counter is
incremented, the slot's on-disk record is reset, and the header is
rewritten and synced. -/
theorem deleteObject_mode_dispatch (env : Env) (f : FileImage) (id : Nat)
    (flags : Int) (di : Descriptor × Nat)
    (hlook : GetFromDescrID f id = Except.ok di) (hz : flags ≠ DelZero) :
    (flags = DelCompact →
      DeleteObject env f id flags =
        (Except.error SifError.notImplemented, f, [])) ∧
    (flags ≠ DelCompact →
      DeleteObject env f id flags =
        (Except.ok (),
          { f with
              Header := { f.Header with
                Dfree := f.Header.Dfree + 1
                Mtime := env.now }
              pos := headerSize },
          [Ev.reset di.2, Ev.header, Ev.sync])) := by
  constructor
  · intro hc
    simp [DeleteObject, hlook, hz, hc, DelZero, DelCompact]
  · intro hc
    simp [DeleteObject, hlook, hz, hc, resetDescriptor, writeHeader]

/-- C2 (witness): the amended behaviour at the concrete container `fA`
with the unknown mode value 3. -/
theorem deleteObject_mode_dispatch_witness :
    GetFromDescrID fA 1 = Except.ok (dA, 0) ∧ (3 : Int) ≠ DelZero ∧
    (3 : Int) ≠ DelCompact ∧
    DeleteObject envA fA 1 3 =
      (Except.ok (),
        { fA with
            Header := { fA.Header with
              Dfree := fA.Header.Dfree + 1
              Mtime := envA.now }
            pos := headerSize },
        [Ev.reset 0, Ev.header, Ev.sync]) := by
  refine ⟨by decide, by decide, by decide, ?_⟩
  exact (deleteObject_mode_dispatch envA fA 1 3 (dA, 0) (by decide)
    (by decide)).2 (by decide)




lemma getD_eq_getElem (l : List Descriptor) (i : Nat) (h : i < l.length) :
    l.getD i emptyDescriptor = l[i] := by
  rw [List.getD_eq_getElem?_getD, List.getElem?_eq_getElem h, Option.getD_some]

/-- C7: allocation into an exhausted container fails and changes
nothing: with `Dfree = 0` the guard fails with the no-free-slot error,
and with `Dfree ≠ 0` but every table slot used the defensive re-check
fails with the desynchronization error; in both cases `createDescriptor`
returns the image unchanged and writes nothing. -/
theorem createDescriptor_exhausted (env : Env) (f : FileImage)
    (input : DescriptorInput) (hlen : f.DescrArr.length = DescrNumEntries)
    (htot : f.Header.Dtotal = (DescrNumEntries : Int)) :
    (f.Header.Dfree = 0 →
      createDescriptor env f input = (Except.error SifError.noFreeSlot, f, [])) ∧
    (f.Header.Dfree ≠ 0 → f.DescrArr.all (fun v => v.Used) = true →
      createDescriptor env f input =
        (Except.error SifError.tableDesync, f, [])) := by
  constructor
  · intro h
    simp [createDescriptor, h]
  · intro h1 h2
    have hall : ∀ x ∈ f.DescrArr, x.Used = true := by
      simpa [List.all_eq_true] using h2
    have hfind : f.DescrArr.findIdx (fun v => v.Used == false) =
        f.DescrArr.length :=
      List.findIdx_eq_length_of_false (fun x hx => by simp [hall x hx])
    have hscan : scanFree f.DescrArr = DescrNumEntries - 1 := by
      simp only [scanFree]
      rw [hfind, hlen, if_pos rfl]
    have hlt : DescrNumEntries - 1 < f.DescrArr.length := by
      rw [hlen]; decide
    have hused :
        (f.DescrArr.getD (DescrNumEntries - 1) emptyDescriptor).Used = true := by
      rw [getD_eq_getElem _ _ hlt]
      exact hall _ (List.getElem_mem hlt)
    have hcond : ((scanFree f.DescrArr : Nat) : Int) = f.Header.Dtotal - 1 ∧
        (f.DescrArr.getD (scanFree f.DescrArr) emptyDescriptor).Used = true := by
      rw [hscan, htot]
      exact ⟨by simp [DescrNumEntries], hused⟩
    simp only [createDescriptor, if_neg h1]
    rw [if_pos hcond]

/-- C7 (witness): at the concrete exhausted container `fFull` the
hypotheses hold and allocation fails with the desynchronization error,
leaving the image unchanged and writing nothing. -/
theorem createDescriptor_exhausted_witness :
    (fFull.DescrArr.length = DescrNumEntries ∧
      fFull.Header.Dtotal = (DescrNumEntries : Int) ∧
      fFull.Header.Dfree ≠ 0 ∧
      fFull.DescrArr.all (fun v => v.Used) = true) ∧
    createDescriptor envA fFull inputA =
      (Except.error SifError.tableDesync, fFull, []) := by
  refine ⟨⟨by decide, by decide, by decide, by decide⟩, ?_⟩
  exact (createDescriptor_exhausted envA fFull inputA (by decide)
    (by decide)).2 (by decide) (by decide)

lemma zeroLoop_chunks (pos n : Int) :
    ∀ ev ∈ zeroLoop pos n, ∃ q l, ev = Ev.zero q l ∧ l ≤ 4096 ∧ (0 ≤ n → 0 ≤ l) := by
  induction pos, n using zeroLoop.induct with
  | case1 pos n h =>
    intro ev hev
    rw [zeroLoop] at hev
    simp only [dif_pos h, List.mem_singleton] at hev
    subst hev
    refine ⟨pos, _, rfl, ?_, ?_⟩ <;> split <;> omega
  | case2 pos n ub h ih =>
    intro ev hev
    rw [zeroLoop] at hev
    simp only [dif_neg h, List.mem_cons] at hev
    rcases hev with rfl | hev
    · refine ⟨pos, _, rfl, ?_, ?_⟩ <;> split <;> omega
    · have hub : ub = if n < 4096 then n else 4096 := rfl
      obtain ⟨q, l, rfl, hl, hl0⟩ := ih ev (by rw [← hub] at hev; exact hev)
      exact ⟨q, l, rfl, hl, fun _ => hl0 (by omega)⟩

lemma zeroLoop_sum (pos n : Int) : 0 ≤ n → ((zeroLoop pos n).map evLen).sum = n := by
  induction pos, n using zeroLoop.induct with
  | case1 pos n h =>
    intro hn
    rw [zeroLoop]
    simp only [dif_pos h, List.map_cons, List.map_nil, List.sum_cons,
      List.sum_nil, evLen]
    split <;> omega
  | case2 pos n ub h ih =>
    intro hn
    have hub : ub = if n < 4096 then n else 4096 := rfl
    rw [zeroLoop]
    simp only [dif_neg h, List.map_cons, List.sum_cons, evLen, ← hub]
    rw [ih (by omega)]
    have hn4 : ¬ n < 4096 := by omega
    rw [hub, if_neg hn4]
    omega

lemma zeroLoop_covers (pos n : Int) : 0 ≤ n → ∀ p : Int,
    (zeroCovers (zeroLoop pos n) p ↔ pos ≤ p ∧ p < pos + n) := by
  induction pos, n using zeroLoop.induct with
  | case1 pos n h =>
    intro hn p
    have hu : (if n < 4096 then n else (4096 : Int)) = n := by split <;> omega
    rw [zeroLoop]
    simp only [dif_pos h]
    unfold zeroCovers
    constructor
    · rintro ⟨q, l, hm, h1, h2⟩
      simp only [List.mem_singleton] at hm
      injection hm with hq hl
      subst hq
      rw [hu] at hl
      omega
    · intro hp
      exact ⟨pos, _, List.mem_singleton.mpr rfl, hp.1, by rw [hu]; omega⟩
  | case2 pos n ub h ih =>
    intro hn p
    have hub : ub = if n < 4096 then n else 4096 := rfl
    have hu : ub = 4096 := by rw [hub]; split <;> omega
    rw [zeroLoop]
    simp only [dif_neg h, ← hub]
    unfold zeroCovers at ih ⊢
    constructor
    · rintro ⟨q, l, hm, h1, h2⟩
      simp only [List.mem_cons] at hm
      rcases hm with hm | hm
      · injection hm with hq hl
        subst hq
        rw [hu] at hl
        omega
      · have := (ih (by omega) p).mp ⟨q, l, hm, h1, h2⟩
        omega
    · intro hp
      by_cases hcase : p < pos + ub
      · exact ⟨pos, ub, List.mem_cons_self _ _, by omega, by omega⟩
      · obtain ⟨q, l, hm, h1, h2⟩ := (ih (by omega) p).mpr (by omega)
        exact ⟨q, l, List.mem_cons_of_mem _ hm, h1, h2⟩

/-- C8: for a descriptor with `Filelen ≥ 0`, a zero-fill writes only
zero-byte chunks of at most 4096 bytes each, their lengths sum to
exactly `Filelen`, and the positions covered by the zero writes are
exactly the payload range `[Fileoff, Fileoff + Filelen)` — every byte
of the range is zeroed and no byte outside it is written. -/
theorem zeroData_zeroes_payload (f : FileImage) (descr : Descriptor)
    (hn : 0 ≤ descr.Filelen) :
    (∀ ev ∈ (zeroData f descr).2, ∃ q l, ev = Ev.zero q l ∧ 0 ≤ l ∧ l ≤ 4096) ∧
    ((zeroData f descr).2.map evLen).sum = descr.Filelen ∧
    (∀ p : Int, zeroCovers (zeroData f descr).2 p ↔
      descr.Fileoff ≤ p ∧ p < descr.Fileoff + descr.Filelen) := by
  refine ⟨?_, zeroLoop_sum _ _ hn, zeroLoop_covers _ _ hn⟩
  intro ev hev
  obtain ⟨q, l, rfl, hl, hl0⟩ :=
    zeroLoop_chunks descr.Fileoff descr.Filelen ev hev
  exact ⟨q, l, rfl, hl0 hn, hl⟩

/-- C8 (witness): zero-filling the 5000-byte descriptor `descrB`
satisfies the hypotheses and the zero writes cover exactly its payload
range. -/
theorem zeroData_zeroes_payload_witness :
    (0 : Int) ≤ descrB.Filelen ∧
    ((∀ ev ∈ (zeroData fA descrB).2,
        ∃ q l, ev = Ev.zero q l ∧ 0 ≤ l ∧ l ≤ 4096) ∧
      ((zeroData fA descrB).2.map evLen).sum = descrB.Filelen ∧
      (∀ p : Int, zeroCovers (zeroData fA descrB).2 p ↔
        descrB.Fileoff ≤ p ∧ p < descrB.Fileoff + descrB.Filelen)) :=
  ⟨by decide, zeroData_zeroes_payload fA descrB (by decide)⟩

lemma createDescriptor_noFree (env : Env) (f : FileImage)
    (input : DescriptorInput) (h : f.Header.Dfree = 0) :
    createDescriptor env f input = (Except.error SifError.noFreeSlot, f, []) := by
  simp [createDescriptor, h]

lemma scanFree_spec (l : List Descriptor) (hex : ∃ x ∈ l, x.Used = false) :
    scanFree l < l.length ∧
    (l.getD (scanFree l) emptyDescriptor).Used = false ∧
    (∀ j, j < scanFree l → (l.getD j emptyDescriptor).Used = true) := by
  have hex' : ∃ x ∈ l, (x.Used == false) = true := by
    obtain ⟨x, hx, hu⟩ := hex
    exact ⟨x, hx, by simp [hu]⟩
  have hlt := List.findIdx_lt_length_of_exists hex'
  have hne : l.findIdx (fun v => v.Used == false) ≠ l.length := Nat.ne_of_lt hlt
  have hscan : scanFree l = l.findIdx (fun v => v.Used == false) := by
    simp only [scanFree, if_neg hne]
  refine ⟨lt_of_eq_of_lt hscan hlt, ?_, ?_⟩
  · rw [hscan, getD_eq_getElem _ _ hlt]
    have hb := @List.findIdx_getElem _ (fun v => v.Used == false) l hlt
    simpa using hb
  · intro j hj
    rw [hscan] at hj
    have hjlt : j < l.length := lt_trans hj hlt
    rw [getD_eq_getElem _ _ hjlt]
    have := List.not_of_lt_findIdx hj
    simpa using this

lemma fillDescriptor_eq (env : Env) (f : FileImage) (idx : Nat)
    (input : DescriptorInput) :
    fillDescriptor env f idx input =
      { f with
          pos := nextAligned f.pos pageSize
          DescrArr := f.DescrArr.set idx (allocDescr env f.pos idx input) } := rfl

lemma getD_set_self (l : List Descriptor) (i : Nat) (d : Descriptor)
    (h : i < l.length) : (l.set i d).getD i emptyDescriptor = d := by
  rw [List.getD_eq_getElem?_getD, List.getElem?_set_self h, Option.getD_some]

lemma createDescriptor_ok_shape (env : Env) (f : FileImage)
    (input : DescriptorInput) (f2 : FileImage) (evs : List Ev)
    (hlen : f.DescrArr.length = DescrNumEntries)
    (htot : f.Header.Dtotal = (DescrNumEntries : Int))
    (hok : createDescriptor env f input = (Except.ok (), f2, evs)) :
    ∃ idx d ws,
      idx < f.DescrArr.length ∧
      (f.DescrArr.getD idx emptyDescriptor).Used = false ∧
      (∀ j, j < idx → (f.DescrArr.getD j emptyDescriptor).Used = true) ∧
      d = allocDescr env f.pos idx input ∧
      f2.DescrArr = f.DescrArr.set idx d ∧
      f2.Header.Dfree = f.Header.Dfree - 1 ∧
      f2.Header.Datalen = f.Header.Datalen + d.Storelen ∧
      f2.Header.Dtotal = f.Header.Dtotal ∧
      f2.Header.Dataoff = f.Header.Dataoff ∧
      f2.Header.Descroff = f.Header.Descroff ∧
      f2.pos = d.Fileoff + (ws.length : Int) ∧
      evs = [Ev.data d.Fileoff ws] ∧
      (input.Data = none → ws = input.Fp ∧ (ws.length : Int) = input.Size) ∧
      (∀ bs, input.Data = some bs → ws = bs) ∧
      f.Header.Dfree ≠ 0 := by
  by_cases hfree : f.Header.Dfree = 0
  · rw [createDescriptor_noFree env f input hfree] at hok
    simp at hok
  by_cases hex : ∃ x ∈ f.DescrArr, x.Used = false
  case neg =>
    exfalso
    have hall : ∀ x ∈ f.DescrArr, x.Used = true := by
      push_neg at hex
      intro x hx
      have := hex x hx
      simpa using this
    have hfind : f.DescrArr.findIdx (fun v => v.Used == false) =
        f.DescrArr.length :=
      List.findIdx_eq_length_of_false (fun x hx => by simp [hall x hx])
    have hscan : scanFree f.DescrArr = DescrNumEntries - 1 := by
      simp only [scanFree]
      rw [hfind, hlen, if_pos rfl]
    have hlt : DescrNumEntries - 1 < f.DescrArr.length := by
      rw [hlen]; decide
    have hused :
        (f.DescrArr.getD (DescrNumEntries - 1) emptyDescriptor).Used = true := by
      rw [getD_eq_getElem _ _ hlt]
      exact hall _ (List.getElem_mem hlt)
    have hcond : ((scanFree f.DescrArr : Nat) : Int) = f.Header.Dtotal - 1 ∧
        (f.DescrArr.getD (scanFree f.DescrArr) emptyDescriptor).Used = true := by
      rw [hscan, htot]
      exact ⟨by simp [DescrNumEntries], hused⟩
    simp only [createDescriptor, if_neg hfree] at hok
    rw [if_pos hcond] at hok
    simp at hok
  case pos =>
    obtain ⟨hidx, hunused, hmin⟩ := scanFree_spec f.DescrArr hex
    have hcond : ¬(((scanFree f.DescrArr : Nat) : Int) = f.Header.Dtotal - 1 ∧
        (f.DescrArr.getD (scanFree f.DescrArr) emptyDescriptor).Used = true) := by
      rintro ⟨-, hu⟩
      rw [hunused] at hu
      exact Bool.false_ne_true hu
    simp only [createDescriptor, if_neg hfree] at hok
    rw [if_neg hcond] at hok
    rw [fillDescriptor_eq] at hok
    cases hdata : input.Data with
    | some bs =>
        simp only [writeDataObject, hdata] at hok
        injection hok with h1 h23
        injection h23 with hf2 hevs
        subst hf2
        subst hevs
        refine ⟨scanFree f.DescrArr, allocDescr env f.pos (scanFree f.DescrArr) input,
          bs, hidx, hunused, hmin, rfl, rfl, rfl, ?_, rfl, rfl, rfl, rfl, rfl, ?_, ?_, hfree⟩
        · show f.Header.Datalen +
            ((f.DescrArr.set (scanFree f.DescrArr)
                (allocDescr env f.pos (scanFree f.DescrArr) input)).getD
              (scanFree f.DescrArr) emptyDescriptor).Storelen =
            f.Header.Datalen +
              (allocDescr env f.pos (scanFree f.DescrArr) input).Storelen
          rw [getD_set_self _ _ _ hidx]
        · intro h
          exact Option.noConfusion h
        · intro bs2 h
          exact Option.some.inj h
    | none =>
        by_cases hsz : ((input.Fp.length : Nat) : Int) ≠ input.Size
        · simp only [writeDataObject, hdata, if_pos hsz] at hok
          simp at hok
        · push_neg at hsz
          simp only [writeDataObject, hdata, if_neg (show ¬((input.Fp.length : Nat) : Int) ≠ input.Size by simpa using hsz)] at hok
          injection hok with h1 h23
          injection h23 with hf2 hevs
          subst hf2
          subst hevs
          refine ⟨scanFree f.DescrArr, allocDescr env f.pos (scanFree f.DescrArr) input,
            input.Fp, hidx, hunused, hmin, rfl, rfl, rfl, ?_, rfl, rfl,
            rfl, rfl, rfl, ?_, ?_, hfree⟩
          · show f.Header.Datalen +
              ((f.DescrArr.set (scanFree f.DescrArr)
                  (allocDescr env f.pos (scanFree f.DescrArr) input)).getD
                (scanFree f.DescrArr) emptyDescriptor).Storelen =
              f.Header.Datalen +
                (allocDescr env f.pos (scanFree f.DescrArr) input).Storelen
            rw [getD_set_self _ _ _ hidx]
          · intro _
            exact ⟨rfl, hsz⟩
          · intro bs2 h
            exact Option.noConfusion h

lemma writeDataObject_DescrArr (g : FileImage) (input : DescriptorInput) :
    (writeDataObject g input).2.1.DescrArr = g.DescrArr := by
  rcases hd : input.Data with _ | bs
  · simp only [writeDataObject, hd]
    split <;> rfl
  · simp only [writeDataObject, hd]

lemma createDescriptor_DescrArr (env : Env) (f : FileImage)
    (input : DescriptorInput) (hfree : f.Header.Dfree ≠ 0)
    (hcond : ¬(((scanFree f.DescrArr : Nat) : Int) = f.Header.Dtotal - 1 ∧
      (f.DescrArr.getD (scanFree f.DescrArr) emptyDescriptor).Used = true)) :
    (createDescriptor env f input).2.1.DescrArr =
      f.DescrArr.set (scanFree f.DescrArr)
        (allocDescr env f.pos (scanFree f.DescrArr) input) := by
  simp only [createDescriptor, if_neg hfree]
  rw [if_neg hcond, fillDescriptor_eq]
  have harr := writeDataObject_DescrArr
    { f with
        pos := nextAligned f.pos pageSize
        DescrArr := f.DescrArr.set (scanFree f.DescrArr)
          (allocDescr env f.pos (scanFree f.DescrArr) input) } input
  rcases hw : writeDataObject
    { f with
        pos := nextAligned f.pos pageSize
        DescrArr := f.DescrArr.set (scanFree f.DescrArr)
          (allocDescr env f.pos (scanFree f.DescrArr) input) } input
    with ⟨r, f', evs'⟩
  rw [hw] at harr
  cases r <;> simpa using harr

lemma freeSync_nonzero (f : FileImage) (hsync : freeSync f)
    (hex : ∃ x ∈ f.DescrArr, x.Used = false) : f.Header.Dfree ≠ 0 := by
  have hpos : 0 < countFree f.DescrArr := by
    rw [countFree, List.countP_pos_iff]
    obtain ⟨x, hx, hu⟩ := hex
    exact ⟨x, hx, by simp [hu]⟩
  rw [freeSync] at hsync
  omega

lemma scanFree_cond_false (f : FileImage)
    (hunused : (f.DescrArr.getD (scanFree f.DescrArr) emptyDescriptor).Used =
      false) :
    ¬(((scanFree f.DescrArr : Nat) : Int) = f.Header.Dtotal - 1 ∧
      (f.DescrArr.getD (scanFree f.DescrArr) emptyDescriptor).Used = true) := by
  rintro ⟨-, hu⟩
  rw [hunused] at hu
  exact Bool.false_ne_true hu

/-- C9: in a container state whose free counter agrees with the table
and that has at least one unused slot, allocation selects the slot with
the lowest index among the unused slots, and the allocated descriptor
is assigned the identifier `index + 1` — so identifiers are reused when
a freed slot is reallocated. -/
theorem createDescriptor_lowest_free_slot (env : Env) (f : FileImage)
    (input : DescriptorInput) (hsync : freeSync f)
    (hex : ∃ x ∈ f.DescrArr, x.Used = false) :
    (f.DescrArr.getD (scanFree f.DescrArr) emptyDescriptor).Used = false ∧
    (∀ j, j < scanFree f.DescrArr →
      (f.DescrArr.getD j emptyDescriptor).Used = true) ∧
    ((createDescriptor env f input).2.1.DescrArr.getD (scanFree f.DescrArr)
        emptyDescriptor).Used = true ∧
    ((createDescriptor env f input).2.1.DescrArr.getD (scanFree f.DescrArr)
        emptyDescriptor).ID = scanFree f.DescrArr + 1 := by
  obtain ⟨hidx, hunused, hmin⟩ := scanFree_spec f.DescrArr hex
  have hfree := freeSync_nonzero f hsync hex
  have harr := createDescriptor_DescrArr env f input hfree
    (scanFree_cond_false f hunused)
  rw [harr, getD_set_self _ _ _ hidx]
  exact ⟨hunused, hmin, rfl, rfl⟩

lemma fA_has_free : ∃ x ∈ fA.DescrArr, x.Used = false := by
  refine ⟨fA.DescrArr.get ⟨1, by decide⟩, ?_, by decide⟩
  rw [List.get_eq_getElem]
  exact List.getElem_mem (by decide)

/-- C9 (witness): allocating into the fresh one-object container `fA`
(synchronized, slots at indices 1..47 free) selects slot index 1 and
assigns id 2. -/
theorem createDescriptor_lowest_free_slot_witness :
    (freeSync fA ∧ ∃ x ∈ fA.DescrArr, x.Used = false) ∧
    ((fA.DescrArr.getD (scanFree fA.DescrArr) emptyDescriptor).Used = false ∧
      (∀ j, j < scanFree fA.DescrArr →
        (fA.DescrArr.getD j emptyDescriptor).Used = true) ∧
      ((createDescriptor envA fA inputA).2.1.DescrArr.getD
          (scanFree fA.DescrArr) emptyDescriptor).Used = true ∧
      ((createDescriptor envA fA inputA).2.1.DescrArr.getD
          (scanFree fA.DescrArr) emptyDescriptor).ID =
        scanFree fA.DescrArr + 1) :=
  ⟨⟨by decide, fA_has_free⟩,
    createDescriptor_lowest_free_slot envA fA inputA (by decide) fA_has_free⟩

/-- C10: for an input with a non-nil buffer, `writeDataObject` writes
the buffer verbatim and always succeeds, without comparing the buffer
length to the declared size — the short-write check applies only to the
stream path — while the descriptor stored by a successful allocation
has `Filelen` set from the declared size; hence when the buffer length
differs from the declared size the stored payload length differs from
the number of payload bytes actually written. -/
theorem writeDataObject_buffer_unchecked (env : Env) (f : FileImage)
    (input : DescriptorInput) (bs : List Nat) (hd : input.Data = some bs)
    (hsync : freeSync f) (hex : ∃ x ∈ f.DescrArr, x.Used = false) :
    (∀ g : FileImage, writeDataObject g input =
      (Except.ok (), { g with pos := g.pos + (bs.length : Int) },
        [Ev.data g.pos bs])) ∧
    (∀ (g : FileImage) (inp : DescriptorInput), inp.Data = none →
      (inp.Fp.length : Int) ≠ inp.Size →
      (writeDataObject g inp).1 = Except.error SifError.shortWrite) ∧
    ∃ f2, createDescriptor env f input =
        (Except.ok (), f2, [Ev.data (nextAligned f.pos pageSize) bs]) ∧
      (f2.DescrArr.getD (scanFree f.DescrArr) emptyDescriptor).Filelen =
        input.Size ∧
      (input.Size ≠ (bs.length : Int) →
        (f2.DescrArr.getD (scanFree f.DescrArr) emptyDescriptor).Filelen ≠
          (bs.length : Int)) := by
  obtain ⟨hidx, hunused, hmin⟩ := scanFree_spec f.DescrArr hex
  have hfree := freeSync_nonzero f hsync hex
  have hcond := scanFree_cond_false f hunused
  refine ⟨?_, ?_, ?_⟩
  · intro g
    simp only [writeDataObject, hd]
  · intro g inp hnone hne
    simp only [writeDataObject, hnone, if_pos hne]
  · simp only [createDescriptor, if_neg hfree]
    rw [if_neg hcond, fillDescriptor_eq]
    simp only [writeDataObject, hd]
    refine ⟨_, rfl, ?_, ?_⟩
    · rw [getD_set_self _ _ _ hidx]
      rfl
    · intro hne
      rw [getD_set_self _ _ _ hidx]
      show input.Size ≠ (bs.length : Int)
      exact hne

/-- C10 (witness): the mismatched input `inputC` (declared size 9999,
1-byte buffer) is accepted: allocation succeeds, exactly one byte is
written, and the stored `Filelen` (9999) differs from it. -/
theorem writeDataObject_buffer_unchecked_witness :
    (inputC.Data = some [5] ∧ freeSync fA ∧
      (∃ x ∈ fA.DescrArr, x.Used = false) ∧
      inputC.Size ≠ (([5] : List Nat).length : Int)) ∧
    (∃ f2, createDescriptor envA fA inputC =
        (Except.ok (), f2, [Ev.data (nextAligned fA.pos pageSize) [5]]) ∧
      (f2.DescrArr.getD (scanFree fA.DescrArr) emptyDescriptor).Filelen =
        inputC.Size ∧
      (inputC.Size ≠ (([5] : List Nat).length : Int) →
        (f2.DescrArr.getD (scanFree fA.DescrArr) emptyDescriptor).Filelen ≠
          (([5] : List Nat).length : Int))) := by
  refine ⟨⟨rfl, by decide, fA_has_free, by decide⟩, ?_⟩
  exact (writeDataObject_buffer_unchecked envA fA inputC [5] rfl (by decide)
    fA_has_free).2.2

lemma usedSum_set (l : List Descriptor) (i : Nat) (d : Descriptor)
    (hi : i < l.length) (hu : (l.getD i emptyDescriptor).Used = false)
    (hd : d.Used = true) :
    usedSum (l.set i d) = usedSum l + d.Storelen := by
  induction l generalizing i with
  | nil => simp at hi
  | cons x xs ih =>
    cases i with
    | zero =>
        simp only [List.getD_cons_zero] at hu
        simp only [List.set_cons_zero, usedSum, List.map_cons, List.sum_cons,
          hd, hu, if_true, if_false, Bool.false_eq_true]
        ring
    | succ n =>
        simp only [List.getD_cons_succ] at hu
        simp only [List.length_cons, Nat.succ_lt_succ_iff] at hi
        simp only [List.set_cons_succ, usedSum, List.map_cons, List.sum_cons]
        have := ih n hi hu
        simp only [usedSum] at this
        rw [this]
        ring

lemma createLoop_accounting (env : Env) (inputs : List DescriptorInput) :
    ∀ f f2 evs, f.DescrArr.length = DescrNumEntries →
      f.Header.Dtotal = (DescrNumEntries : Int) →
      createLoop env f inputs = (Except.ok (), f2, evs) →
      f2.DescrArr.length = DescrNumEntries ∧
      f2.Header.Dtotal = f.Header.Dtotal ∧
      f2.Header.Dfree = f.Header.Dfree - (inputs.length : Int) ∧
      (f.Header.Datalen = usedSum f.DescrArr →
        f2.Header.Datalen = usedSum f2.DescrArr) ∧
      f2.Header.Dataoff = f.Header.Dataoff ∧
      f2.Header.Descroff = f.Header.Descroff := by
  induction inputs with
  | nil =>
      intro f f2 evs hlen htot hok
      simp only [createLoop] at hok
      injection hok with h1 h23
      injection h23 with hf2 hevs
      subst hf2
      simp [hlen, htot]
  | cons input rest ih =>
      intro f f2 evs hlen htot hok
      rcases hcd : createDescriptor env f input with ⟨r, f1, evs1⟩
      cases r with
      | error e =>
          simp only [createLoop, hcd] at hok
          simp at hok
      | ok u =>
          cases u
          rcases hloop : createLoop env f1 rest with ⟨r2, f1b, evs2⟩
          simp only [createLoop, hcd, hloop] at hok
          cases r2 with
          | error e => simp at hok
          | ok u2 =>
              cases u2
              injection hok with h1 h23
              injection h23 with hf2 hevs
              subst hf2
              obtain ⟨idx, d, ws, hidx, hunused, hmin, hd, harr, hdfree,
                hdatalen, hdtotal, hdataoff, hdescroff, hpos, hevs1, hnone,
                hsome, hfree⟩ :=
                createDescriptor_ok_shape env f input f1 evs1 hlen htot hcd
              have hlen1 : f1.DescrArr.length = DescrNumEntries := by
                rw [harr, List.length_set, hlen]
              have htot1 : f1.Header.Dtotal = (DescrNumEntries : Int) := by
                rw [hdtotal, htot]
              obtain ⟨l2, t2, df2, dl2, da2, de2⟩ :=
                ih f1 f1b evs2 hlen1 htot1 hloop
              refine ⟨l2, ?_, ?_, ?_, ?_, ?_⟩
              · rw [t2, hdtotal]
              · rw [df2, hdfree]
                simp only [List.length_cons]
                push_cast
                ring
              · intro hds
                apply dl2
                rw [hdatalen, harr, hds]
                rw [usedSum_set f.DescrArr idx d (by omega) hunused]
                rw [hd]
                rfl
              · rw [da2, hdataoff]
              · rw [de2, hdescroff]
lemma usedSum_replicate (n : Nat) :
    usedSum (List.replicate n emptyDescriptor) = 0 := by
  induction n with
  | zero => simp [usedSum]
  | succ m ih =>
      rw [List.replicate_succ]
      simp only [usedSum, List.map_cons, List.sum_cons] at ih ⊢
      rw [ih]
      simp [emptyDescriptor]

/-- C5: after a successful `CreateContainer` with `N` inputs
(`1 ≤ N ≤ capacity`), the used-slot count satisfies
`Dtotal − Dfree = N` and `Datalen` equals the sum of `Storelen` over
the used descriptors (each `Storelen` was set by `fillDescriptor` to
`Fileoff + Filelen − curoff`, the layout-relative stored length). -/
theorem createContainer_accounting (env : Env) (cinfo : CreateInfo)
    (f2 : FileImage) (evs : List Ev)
    (hN1 : 1 ≤ cinfo.Inputlist.length)
    (hN2 : cinfo.Inputlist.length ≤ DescrNumEntries)
    (hok : CreateContainer env cinfo = (Except.ok (), f2, evs)) :
    f2.Header.Dtotal - f2.Header.Dfree = (cinfo.Inputlist.length : Int) ∧
    f2.Header.Datalen = usedSum f2.DescrArr := by
  have hne : ¬ cinfo.Inputlist.length = 0 := by omega
  simp only [CreateContainer, if_neg hne] at hok
  split at hok
  · simp at hok
  · rename_i a fimg1 evs1 heq
    simp only [writeDescriptors, writeHeader] at hok
    injection hok with h1 h23
    injection h23 with hf2 hevs
    subst hf2
    cases a
    obtain ⟨l2, t2, df2, dl2, da2, de2⟩ :=
      createLoop_accounting env cinfo.Inputlist _ fimg1 evs1
        (by simp) (by rfl) heq
    constructor
    · show fimg1.Header.Dtotal - fimg1.Header.Dfree = _
      rw [t2, df2]
      show ((DescrNumEntries : Nat) : Int) - _ = _
      have : (freshHeader env cinfo).Dfree = ((DescrNumEntries : Nat) : Int) := rfl
      rw [this]
      ring
    · show fimg1.Header.Datalen = usedSum fimg1.DescrArr
      apply dl2
      show (freshHeader env cinfo).Datalen = usedSum (List.replicate DescrNumEntries emptyDescriptor)
      rw [usedSum_replicate]
      rfl

/-- C5 (witness): the one-object creation `cinfoA` satisfies the
hypotheses, yielding `Dtotal − Dfree = 1` and `Datalen` equal to the
used stored lengths. -/
theorem createContainer_accounting_witness :
    (1 ≤ cinfoA.Inputlist.length ∧ cinfoA.Inputlist.length ≤ DescrNumEntries ∧
      CreateContainer envA cinfoA =
        (Except.ok (), (CreateContainer envA cinfoA).2.1,
          (CreateContainer envA cinfoA).2.2)) ∧
    ((CreateContainer envA cinfoA).2.1.Header.Dtotal -
        (CreateContainer envA cinfoA).2.1.Header.Dfree =
      (cinfoA.Inputlist.length : Int) ∧
      (CreateContainer envA cinfoA).2.1.Header.Datalen =
        usedSum (CreateContainer envA cinfoA).2.1.DescrArr) := by
  refine ⟨⟨by decide, by decide, by decide⟩, ?_⟩
  exact createContainer_accounting envA cinfoA
    ((CreateContainer envA cinfoA).2.1) ((CreateContainer envA cinfoA).2.2)
    (by decide) (by decide) (by decide)

lemma writeDataObject_trace (g : FileImage) (input : DescriptorInput) :
    ∃ p ws, (writeDataObject g input).2.2 = [Ev.data p ws] := by
  rcases hd : input.Data with _ | bs
  · simp only [writeDataObject, hd]
    split
    · exact ⟨_, _, rfl⟩
    · exact ⟨_, _, rfl⟩
  · exact ⟨g.pos, bs, by simp [writeDataObject, hd]⟩

lemma createDescriptor_trace (env : Env) (f : FileImage)
    (input : DescriptorInput) :
    (createDescriptor env f input).2.2 = [] ∨
      ∃ p ws, (createDescriptor env f input).2.2 = [Ev.data p ws] := by
  simp only [createDescriptor]
  split
  · exact Or.inl rfl
  · split
    · exact Or.inl rfl
    · obtain ⟨p, ws, hw⟩ :=
        writeDataObject_trace (fillDescriptor env f (scanFree f.DescrArr) input)
          input
      rcases hr : writeDataObject
          (fillDescriptor env f (scanFree f.DescrArr) input) input
          with ⟨r, f', evs'⟩
      rw [hr] at hw
      cases r
      · exact Or.inr ⟨p, ws, hw⟩
      · exact Or.inr ⟨p, ws, hw⟩

lemma createLoop_trace (env : Env) (inputs : List DescriptorInput) :
    ∀ f ev, ev ∈ (createLoop env f inputs).2.2 → ∃ p ws, ev = Ev.data p ws := by
  induction inputs with
  | nil =>
      intro f ev hev
      simp [createLoop] at hev
  | cons input rest ih =>
      intro f ev hev
      rcases hcd : createDescriptor env f input with ⟨r, f1, evs1⟩
      have hevs1 : ∀ e ∈ evs1, ∃ p ws, e = Ev.data p ws := by
        intro e he
        rcases createDescriptor_trace env f input with h | ⟨p, ws, h⟩
        · rw [hcd] at h
          simp only at h
          rw [h] at he
          simp at he
        · rw [hcd] at h
          simp only at h
          rw [h] at he
          rw [List.mem_singleton.mp he]
          exact ⟨p, ws, rfl⟩
      cases r with
      | error e =>
          simp only [createLoop, hcd] at hev
          exact hevs1 ev hev
      | ok u =>
          simp only [createLoop, hcd] at hev
          rw [List.mem_append] at hev
          rcases hev with hev | hev
          · exact hevs1 ev hev
          · exact ih f1 ev hev

/-- C6: in every successful `CreateContainer` and every successful
`AddObject`, the write trace persists the full descriptor table
strictly before the first (and only) header write: only payload-data
writes precede the table write, so no step sequence writes the header
while the table it describes is unwritten. -/
theorem persistence_table_before_header (env : Env) :
    (∀ cinfo f2 evs, CreateContainer env cinfo = (Except.ok (), f2, evs) →
      tableThenHeader evs) ∧
    (∀ f input f2 evs, AddObject env f input = (Except.ok (), f2, evs) →
      tableThenHeader evs) := by
  constructor
  · intro cinfo f2 evs hok
    by_cases hne : cinfo.Inputlist.length = 0
    · simp [CreateContainer, hne] at hok
    · simp only [CreateContainer, if_neg hne] at hok
      split at hok
      · simp at hok
      · rename_i a fimg1 evs1 heq
        simp only [writeDescriptors, writeHeader] at hok
        injection hok with h1 h23
        injection h23 with hf2 hevs
        have hdata : ∀ e ∈ evs1, ∃ p ws, e = Ev.data p ws := by
          intro e he
          apply createLoop_trace env cinfo.Inputlist _ e
          rw [heq]
          exact he
        refine ⟨evs1, [], [], ?_, ?_, by simp⟩
        · rw [← hevs]
          simp
        · intro hmem
          obtain ⟨p, ws, hpw⟩ := hdata Ev.header hmem
          cases hpw
  · intro f input f2 evs hok
    simp only [AddObject] at hok
    split at hok
    · simp at hok
    · rename_i a fimg1 evs1 heq
      simp only [writeDescriptors, writeHeader] at hok
      injection hok with h1 h23
      injection h23 with hf2 hevs
      have hdata : ∀ e ∈ evs1, ∃ p ws, e = Ev.data p ws := by
        intro e he
        rcases createDescriptor_trace env
            { f with pos := f.Header.Dataoff + f.Header.Datalen } input
          with h | ⟨p, ws, h⟩
        · rw [heq] at h
          simp only at h
          rw [h] at he
          simp at he
        · rw [heq] at h
          simp only at h
          rw [h] at he
          rw [List.mem_singleton.mp he]
          exact ⟨p, ws, rfl⟩
      refine ⟨evs1, [], [Ev.sync], ?_, ?_, by simp⟩
      · rw [← hevs]
        simp
      · intro hmem
        obtain ⟨p, ws, hpw⟩ := hdata Ev.header hmem
        cases hpw

/-- C6 (witness): the concrete one-object creation and a concrete
`AddObject` on its result both produce traces whose table write
precedes the header write. -/
theorem persistence_table_before_header_witness :
    (CreateContainer envA cinfoA =
        (Except.ok (), (CreateContainer envA cinfoA).2.1,
          (CreateContainer envA cinfoA).2.2) ∧
      AddObject envA fA inputA =
        (Except.ok (), (AddObject envA fA inputA).2.1,
          (AddObject envA fA inputA).2.2)) ∧
    tableThenHeader (CreateContainer envA cinfoA).2.2 ∧
    tableThenHeader (AddObject envA fA inputA).2.2 := by
  refine ⟨⟨by decide, by decide⟩, ?_, ?_⟩
  · exact (persistence_table_before_header envA).1 cinfoA
      ((CreateContainer envA cinfoA).2.1) ((CreateContainer envA cinfoA).2.2)
      (by decide)
  · exact (persistence_table_before_header envA).2 fA inputA
      ((AddObject envA fA inputA).2.1) ((AddObject envA fA inputA).2.2)
      (by decide)

/-- C4 (counterexample): a successful `CreateContainer` whose first
input declares 8192 bytes but supplies a 1-byte buffer produces two
used descriptors with overlapping payload ranges: slot 0 claims
`[32768, 40960)` while slot 1 is placed at 36864, inside it. -/
theorem createContainer_overlap_counterexample :
    (CreateContainer envA cinfoD).1 = Except.ok () ∧
    ((CreateContainer envA cinfoD).2.1.DescrArr.getD 0 emptyDescriptor).Used
      = true ∧
    ((CreateContainer envA cinfoD).2.1.DescrArr.getD 1 emptyDescriptor).Used
      = true ∧
    ((CreateContainer envA cinfoD).2.1.DescrArr.getD 0
      emptyDescriptor).Fileoff = 32768 ∧
    ((CreateContainer envA cinfoD).2.1.DescrArr.getD 0
      emptyDescriptor).Filelen = 8192 ∧
    ((CreateContainer envA cinfoD).2.1.DescrArr.getD 1
      emptyDescriptor).Fileoff = 36864 ∧
    ¬ rangesDisjoint
      ((CreateContainer envA cinfoD).2.1.DescrArr.getD 0 emptyDescriptor)
      ((CreateContainer envA cinfoD).2.1.DescrArr.getD 1 emptyDescriptor) := by
  decide

lemma createDescriptor_layout (env : Env) (f : FileImage)
    (input : DescriptorInput) (f2 : FileImage) (evs : List Ev)
    (hgood : sizedInput input) (hinv : layoutInv f)
    (hok : createDescriptor env f input = (Except.ok (), f2, evs)) :
    layoutInv f2 := by
  obtain ⟨hlen, htot, hdataoff, hdf0, hdfN, hposlo, hposhi, hwithin, hdisj⟩ :=
    hinv
  obtain ⟨idx, d, ws, hidx, hunused, hmin, hd, harr, hdfree, hdatalen,
    hdtotal, hdataoff2, hdescroff, hpos, hevs, hnone, hsome, hfree⟩ :=
    createDescriptor_ok_shape env f input f2 evs hlen htot hok
  have hL : (ws.length : Int) = input.Size := by
    rcases hdd : input.Data with _ | bs
    · exact (hnone hdd).2
    · rw [hsome bs hdd]
      exact hgood.2 bs hdd
  have hS0 : 0 ≤ input.Size := by
    rw [← hL]
    positivity
  have hSC : input.Size ≤ 2 ^ 50 := hgood.1
  have h2_50 : (2 : Int) ^ 50 = 1125899906842624 := by norm_num
  have h48 : (DescrNumEntries : Int) = 48 := by norm_num [DescrNumEntries]
  have hmul : ((DescrNumEntries : Int) - f.Header.Dfree) * (2 ^ 50 + 4096) ≤
      48 * (2 ^ 50 + 4096) := by
    apply mul_le_mul_of_nonneg_right _ (by norm_num)
    omega
  have hposbound : f.pos + 2 ^ 12 ≤ 2 ^ 63 := by
    have hda : DataStartOffset = 32768 := by norm_num [DataStartOffset]
    rw [hda] at hposhi
    norm_num at hmul hposhi ⊢
    omega
  have halign := nextAligned_spec f.pos 12 (by norm_num)
    (by norm_num [DataStartOffset] at hposlo; omega) hposbound
  have hpage : pageSize = (2 : Int) ^ 12 := by norm_num [pageSize]
  have ha1 : f.pos ≤ nextAligned f.pos pageSize := by
    rw [hpage]; exact halign.1
  have ha2 : nextAligned f.pos pageSize - f.pos < 2 ^ 12 := by
    rw [hpage]; exact halign.2.1
  have hdUsed : d.Used = true := by rw [hd]; rfl
  have hdFileoff : d.Fileoff = nextAligned f.pos pageSize := by rw [hd]; rfl
  have hdFilelen : d.Filelen = input.Size := by rw [hd]; rfl
  have hlen2 : f2.DescrArr.length = f.DescrArr.length := by
    rw [harr, List.length_set]
  have hpos2 : f2.pos = d.Fileoff + input.Size := by rw [hpos, hL]
  refine ⟨by rw [hlen2, hlen], by rw [hdtotal, htot], by rw [hdataoff2, hdataoff],
    by omega, by omega, ?_, ?_, ?_, ?_⟩
  · rw [hpos2, hdFileoff]
    omega
  · rw [hpos2, hdFileoff, hdfree]
    have hring : ((DescrNumEntries : Int) - (f.Header.Dfree - 1)) *
        (2 ^ 50 + 4096) =
        ((DescrNumEntries : Int) - f.Header.Dfree) * (2 ^ 50 + 4096) +
          (2 ^ 50 + 4096) := by ring
    rw [hring]
    norm_num at ha2 hSC hposhi ⊢
    omega
  · -- tableWithin f2
    intro i hi hu
    have hi' : i < f.DescrArr.length := by rw [← hlen2]; exact hi
    by_cases hij : i = idx
    · subst hij
      have hget : f2.DescrArr.get ⟨i, hi⟩ = d := by
        rw [List.get_eq_getElem]
        simp only [harr]
        exact List.getElem_set_self (by rw [List.length_set]; exact hi')
      rw [hget, hdFileoff, hdFilelen, hpos2, hdFileoff]
      refine ⟨?_, hS0, le_refl _⟩
      rw [hdataoff2, hdataoff]
      norm_num [DataStartOffset] at hposlo ⊢
      omega
    · have hget : f2.DescrArr.get ⟨i, hi⟩ = f.DescrArr.get ⟨i, hi'⟩ := by
        rw [List.get_eq_getElem, List.get_eq_getElem]
        simp only [harr]
        exact List.getElem_set_ne (fun h => hij h.symm)
          (by rw [List.length_set]; exact hi')
      rw [hget] at hu ⊢
      obtain ⟨hw1, hw2, hw3⟩ := hwithin i hi' hu
      refine ⟨by rw [hdataoff2]; exact hw1, hw2, ?_⟩
      rw [hpos2]
      have : f.pos ≤ d.Fileoff + input.Size := by
        rw [hdFileoff]; omega
      omega
  · -- disjointTable f2
    intro i j hi hj hij hui huj
    have hi' : i < f.DescrArr.length := by rw [← hlen2]; exact hi
    have hj' : j < f.DescrArr.length := by rw [← hlen2]; exact hj
    have hgetd : ∀ (m : Nat) (hm : m < f2.DescrArr.length) (hm' : m < f.DescrArr.length),
        m = idx → f2.DescrArr.get ⟨m, hm⟩ = d := by
      intro m hm hm' he
      subst he
      rw [List.get_eq_getElem]
      simp only [harr]
      exact List.getElem_set_self (by rw [List.length_set]; exact hm')
    have hgeto : ∀ (m : Nat) (hm : m < f2.DescrArr.length) (hm' : m < f.DescrArr.length),
        m ≠ idx → f2.DescrArr.get ⟨m, hm⟩ = f.DescrArr.get ⟨m, hm'⟩ := by
      intro m hm hm' hne
      rw [List.get_eq_getElem, List.get_eq_getElem]
      simp only [harr]
      exact List.getElem_set_ne (fun h => hne h.symm)
        (by rw [List.length_set]; exact hm')
    have hold : ∀ (m : Nat) (hm : m < f2.DescrArr.length)
        (hm' : m < f.DescrArr.length), m ≠ idx →
        (f2.DescrArr.get ⟨m, hm⟩).Used = true →
        (f.DescrArr.get ⟨m, hm'⟩).Fileoff +
          (f.DescrArr.get ⟨m, hm'⟩).Filelen ≤ d.Fileoff := by
      intro m hm hm' hne hu
      rw [hgeto m hm hm' hne] at hu
      obtain ⟨-, -, hw3⟩ := hwithin m hm' hu
      rw [hdFileoff]
      omega
    by_cases hiidx : i = idx
    · have hjidx : j ≠ idx := by rw [← hiidx]; exact fun h => hij h.symm
      rw [hgetd i hi hi' hiidx, hgeto j hj hj' hjidx]
      right
      exact hold j hj hj' hjidx huj
    · by_cases hjidx : j = idx
      · rw [hgetd j hj hj' hjidx, hgeto i hi hi' hiidx]
        left
        exact hold i hi hi' hiidx hui
      · rw [hgeto i hi hi' hiidx, hgeto j hj hj' hjidx]
        rw [hgeto i hi hi' hiidx] at hui
        rw [hgeto j hj hj' hjidx] at huj
        exact hdisj i j hi' hj' hij hui huj
lemma layoutInv_fresh (env : Env) (cinfo : CreateInfo) :
    layoutInv
      { Header := freshHeader env cinfo
        DescrArr := List.replicate DescrNumEntries emptyDescriptor
        pos := DataStartOffset } := by
  refine ⟨by simp, rfl, rfl, by norm_num [freshHeader, zeroHeader, DescrNumEntries],
    le_refl _, le_refl _, ?_, ?_, ?_⟩
  · show DataStartOffset ≤ DataStartOffset +
      ((DescrNumEntries : Int) - (DescrNumEntries : Int)) * (2 ^ 50 + 4096)
    norm_num
  · intro i hi hu
    rw [List.get_eq_getElem, List.getElem_replicate] at hu
    simp [emptyDescriptor] at hu
  · intro i j hi hj hij hui
    rw [List.get_eq_getElem, List.getElem_replicate] at hui
    simp [emptyDescriptor] at hui

lemma createLoop_layout (env : Env) (inputs : List DescriptorInput) :
    ∀ f f2 evs, (∀ i ∈ inputs, sizedInput i) → layoutInv f →
      createLoop env f inputs = (Except.ok (), f2, evs) → layoutInv f2 := by
  induction inputs with
  | nil =>
      intro f f2 evs _ hinv hok
      simp only [createLoop] at hok
      injection hok with h1 h23
      injection h23 with hf2 hevs
      rw [← hf2]
      exact hinv
  | cons input rest ih =>
      intro f f2 evs hgood hinv hok
      rcases hcd : createDescriptor env f input with ⟨r, f1, evs1⟩
      cases r with
      | error e =>
          simp only [createLoop, hcd] at hok
          simp at hok
      | ok u =>
          cases u
          rcases hloop : createLoop env f1 rest with ⟨r2, f1b, evs2⟩
          simp only [createLoop, hcd, hloop] at hok
          cases r2 with
          | error e => simp at hok
          | ok u2 =>
              cases u2
              injection hok with h1 h23
              injection h23 with hf2 hevs
              rw [← hf2]
              have hinv1 := createDescriptor_layout env f input f1 evs1
                (hgood input (by simp)) hinv hcd
              exact ih f1 f1b evs2 (fun i hi => hgood i (by simp [hi])) hinv1
                hloop

/-- C4 (amended): after every successful `CreateContainer` call whose
inputs are well-sized (any in-memory buffer has exactly the declared
length, and declared sizes are at most `2^50` so offsets stay in
`int64`), every used descriptor's `Fileoff` is at least the data-region
offset, and the payload ranges `[Fileoff, Fileoff + Filelen)` of any
two distinct used descriptors are disjoint. -/
theorem createContainer_ranges_disjoint (env : Env) (cinfo : CreateInfo)
    (f2 : FileImage) (evs : List Ev)
    (hgood : ∀ i ∈ cinfo.Inputlist, sizedInput i)
    (hok : CreateContainer env cinfo = (Except.ok (), f2, evs)) :
    (∀ i (hi : i < f2.DescrArr.length),
      (f2.DescrArr.get ⟨i, hi⟩).Used = true →
      f2.Header.Dataoff ≤ (f2.DescrArr.get ⟨i, hi⟩).Fileoff) ∧
    disjointTable f2.DescrArr := by
  by_cases hne : cinfo.Inputlist.length = 0
  · simp [CreateContainer, hne] at hok
  simp only [CreateContainer, if_neg hne] at hok
  split at hok
  · simp at hok
  · rename_i a fimg1 evs1 heq
    cases a
    simp only [writeDescriptors, writeHeader] at hok
    injection hok with h1 h23
    injection h23 with hf2 hevs
    have hinv1 : layoutInv fimg1 :=
      createLoop_layout env cinfo.Inputlist _ fimg1 evs1 hgood
        (layoutInv_fresh env cinfo) heq
    obtain ⟨-, -, -, -, -, -, -, hwithin, hdisj⟩ := hinv1
    rw [← hf2]
    constructor
    · intro i hi hu
      exact (hwithin i hi hu).1
    · exact hdisj

lemma sizedInput_inputA : sizedInput inputA := by
  constructor
  · norm_num [inputA]
  · intro bs h
    have h' : inputA.Data = some [1, 2, 3, 4, 5, 6, 7, 8, 9, 10] := rfl
    rw [h'] at h
    rw [← Option.some.inj h]
    decide

/-- C4 (witness): the honest one-object creation `cinfoA` satisfies the
hypotheses; its only used descriptor starts at the data-region offset
and the table's used ranges are pairwise disjoint. -/
theorem createContainer_ranges_disjoint_witness :
    ((∀ i ∈ cinfoA.Inputlist, sizedInput i) ∧
      CreateContainer envA cinfoA =
        (Except.ok (), (CreateContainer envA cinfoA).2.1,
          (CreateContainer envA cinfoA).2.2)) ∧
    ((∀ i (hi : i < (CreateContainer envA cinfoA).2.1.DescrArr.length),
      ((CreateContainer envA cinfoA).2.1.DescrArr.get ⟨i, hi⟩).Used = true →
      (CreateContainer envA cinfoA).2.1.Header.Dataoff ≤
        ((CreateContainer envA cinfoA).2.1.DescrArr.get ⟨i, hi⟩).Fileoff) ∧
    disjointTable (CreateContainer envA cinfoA).2.1.DescrArr) := by
  have hgood : ∀ i ∈ cinfoA.Inputlist, sizedInput i := by
    intro i hi
    have : i = inputA := by
      simpa [cinfoA] using hi
    rw [this]
    exact sizedInput_inputA
  refine ⟨⟨hgood, by decide⟩, ?_⟩
  exact createContainer_ranges_disjoint envA cinfoA
    ((CreateContainer envA cinfoA).2.1) ((CreateContainer envA cinfoA).2.2)
    hgood (by decide)

end Sif
